import Mathlib

/-!
Shallow embedding of the library-management backend (`server.js`).

The server is an Express application over a MySQL pool.  We embed the three
tables (`books`, `members`, `borrowed_records`) as lists of rows, and each
HTTP route in the claims as a pure function from a database state to an
`Except` value: `.error msg` models an HTTP error response (the enclosing
transaction rolls back, so the state is unchanged), `.ok` carries the
committed state (and the response message where a claim mentions it).

Modelling conventions, fixed by the store's semantics:
* MySQL primary keys: row ids are `Nat`; `AUTO_INCREMENT` is modelled by a
  `nextLoanId` / `nextBookId` counter in the state.
* Dates are integer day numbers (both `today` normalised to midnight and the
  `DATE` column values are midnight instants, so a day is the granularity);
  the JavaScript millisecond arithmetic of the return route is reproduced by
  scaling with `msPerDay`.
* JavaScript truthiness on request fields: a `String` field is falsy exactly
  when it is `""`; the numeric `copies` field is falsy exactly when it is `0`;
  an absent optional field is `none`.  `x || null` on an optional string is
  `orNull`.
* The mysql2 driver connects with the `FOUND_ROWS` client flag (its default),
  so `result.affectedRows` of an `UPDATE ... WHERE id = ?` counts the rows
  matched by the `WHERE` clause, not the rows whose values changed.
-/

/-- One row of the `books` table. -/
structure Book where
  id : Nat
  title : String
  author : String
  isbn : Option String
  genre : Option String
  year : Option Int
  copies : Int
  available : Int
  coverImageURL : Option String
deriving DecidableEq

/-- One row of the `members` table. -/
structure Member where
  id : Nat
  name : String
  email : Option String
  joinDate : Int
  booksBorrowed : Int
  outstandingFines : Int
  userId : Option Nat
deriving DecidableEq

/-- One row of the `borrowed_records` table. -/
structure Loan where
  id : Nat
  bookId : Nat
  memberId : Nat
  bookTitle : String
  memberName : String
  borrowDate : Int
  dueDate : Int
deriving DecidableEq

/-- The database state: the three tables plus the auto-increment counters. -/
structure DB where
  books : List Book
  members : List Member
  loans : List Loan
  nextBookId : Nat
  nextLoanId : Nat
deriving DecidableEq

/-- `const DAILY_FINE_RATE = 100` (server.js line 9). -/
def DAILY_FINE_RATE : Int := 100

/-- Milliseconds in a day, the `1000 * 3600 * 24` of the return route. -/
def msPerDay : Int := 1000 * 3600 * 24

/-- JavaScript `x || null` on an optional string: `""` and absence both
collapse to SQL `NULL`. -/
def orNull (x : Option String) : Option String :=
  match x with
  | some s => if s == "" then none else some s
  | none => none

/-- The body of `POST /api/books` and `PUT /api/books/:id`: fields of the
request, with `year` kept numeric as stored. -/
structure BookReq where
  title : String
  author : String
  isbn : Option String
  genre : Option String
  year : Option Int
  copies : Int
  coverImageURL : Option String
deriving DecidableEq

/-- `POST /api/borrow` (server.js lines 378-409).  Inside one transaction:
`SELECT * FROM books WHERE id = ? AND available > 0 FOR UPDATE`,
`SELECT * FROM members WHERE id = ?`; if either is empty the route throws
`'Book is unavailable or member not found.'` and rolls back; otherwise it
decrements `available`, increments `booksBorrowed`, and inserts a loan row
snapshotting title/name with the auto-increment id. -/
def borrow (s : DB) (memberId bookId : Nat) (dueDate borrowDate : Int) :
    Except String DB :=
  let books := s.books.filter (fun b => b.id == bookId && 0 < b.available)
  let members := s.members.filter (fun m => m.id == memberId)
  match books.head?, members.head? with
  | some book, some member =>
      .ok { s with
        books := s.books.map (fun b =>
          if b.id == bookId then { b with available := b.available - 1 } else b),
        members := s.members.map (fun m =>
          if m.id == memberId then { m with booksBorrowed := m.booksBorrowed + 1 } else m),
        loans := s.loans ++
          [{ id := s.nextLoanId, bookId := book.id, memberId := member.id,
             bookTitle := book.title, memberName := member.name,
             borrowDate := borrowDate, dueDate := dueDate }],
        nextLoanId := s.nextLoanId + 1 }
  | _, _ => .error "Book is unavailable or member not found."

/-- `POST /api/student/borrow` (server.js lines 142-183): resolve the member
by `userId` first (403 if absent), then the same transaction as `borrow`,
with the error message `'Book is unavailable.'`. -/
def studentBorrow (s : DB) (userId bookId : Nat) (dueDate borrowDate : Int) :
    Except String DB :=
  match (s.members.filter (fun m => m.userId == some userId)).head? with
  | none => .error "No library member profile found for this user."
  | some member =>
    match (s.books.filter (fun b => b.id == bookId && 0 < b.available)).head? with
    | none => .error "Book is unavailable."
    | some book =>
      .ok { s with
        books := s.books.map (fun b =>
          if b.id == bookId then { b with available := b.available - 1 } else b),
        members := s.members.map (fun m =>
          if m.id == member.id then { m with booksBorrowed := m.booksBorrowed + 1 } else m),
        loans := s.loans ++
          [{ id := s.nextLoanId, bookId := book.id, memberId := member.id,
             bookTitle := book.title, memberName := member.name,
             borrowDate := borrowDate, dueDate := dueDate }],
        nextLoanId := s.nextLoanId + 1 }

/-- `POST /api/return` (server.js lines 411-447).  Lock and read the loan row
(404-style throw if absent); if `today > dueDate`, charge
`Math.ceil(timeDiff / msPerDay) * DAILY_FINE_RATE` and extend the message;
then increment the book's `available`, decrement the member's
`booksBorrowed`, add the fine to `outstandingFines`, and delete the loan row.
`today` and the stored due date are midnight instants, expressed in days, so
`timeDiff` is their difference scaled to milliseconds; `Math.ceil` of the
positive quotient is `(timeDiff + (msPerDay - 1)) / msPerDay` over `Int`. -/
def returnLoan (s : DB) (borrowId : Nat) (today : Int) :
    Except String (DB × String) :=
  match (s.loans.filter (fun l => l.id == borrowId)).head? with
  | none => .error "Borrow record not found."
  | some record =>
    let fineDays : Int × Int :=
      if record.dueDate < today then
        let timeDiff := (today - record.dueDate) * msPerDay
        let daysOverdue := (timeDiff + (msPerDay - 1)) / msPerDay
        (daysOverdue * DAILY_FINE_RATE, daysOverdue)
      else (0, 0)
    let fine := fineDays.1
    let responseMessage :=
      if record.dueDate < today then
        "Book returned successfully." ++ " A fine of ₹" ++ toString fine ++
          ".00 for " ++ toString fineDays.2 ++ " day(s) overdue added."
      else "Book returned successfully."
    .ok ({ s with
      books := s.books.map (fun b =>
        if b.id == record.bookId then { b with available := b.available + 1 } else b),
      members := s.members.map (fun m =>
        if m.id == record.memberId then
          { m with booksBorrowed := m.booksBorrowed - 1,
                   outstandingFines := m.outstandingFines + fine }
        else m),
      loans := s.loans.filter (fun l => !(l.id == borrowId)) }, responseMessage)

/-- `POST /api/books` (server.js lines 215-227): validation
`!title || !author || !copies`, then insert with `available = copies`. -/
def createBook (s : DB) (req : BookReq) : Except String (DB × Nat) :=
  if req.title == "" || req.author == "" || req.copies == 0 then
    .error "Title, author, and copies are required."
  else
    .ok ({ s with
      books := s.books ++
        [{ id := s.nextBookId, title := req.title, author := req.author,
           isbn := orNull req.isbn, genre := orNull req.genre, year := req.year,
           copies := req.copies, available := req.copies,
           coverImageURL := orNull req.coverImageURL }],
      nextBookId := s.nextBookId + 1 }, s.nextBookId)

/-- `PUT /api/books/:id` (server.js lines 229-265): same validation, then
`SELECT * WHERE id = ?` (404 if empty), then
`copyChange = (copies || oldBook.copies) - oldBook.copies`,
`newAvailable = oldBook.available + copyChange`; reject if negative, else
`UPDATE` every field of the matched row.  The row was just read, so the
`UPDATE` matches it and `affectedRows > 0`. -/
def updateBook (s : DB) (id : Nat) (req : BookReq) : Except String (DB × String) :=
  if req.title == "" || req.author == "" || req.copies == 0 then
    .error "Title, author, and copies are required."
  else
    match (s.books.filter (fun b => b.id == id)).head? with
    | none => .error "Book not found"
    | some oldBook =>
      let copyChange := (if req.copies == 0 then oldBook.copies else req.copies) -
        oldBook.copies
      let newAvailable := oldBook.available + copyChange
      if newAvailable < 0 then
        .error "Cannot reduce copies below the number currently borrowed."
      else
        .ok ({ s with
          books := s.books.map (fun b =>
            if b.id == id then
              { b with title := req.title, author := req.author,
                       isbn := orNull req.isbn, genre := orNull req.genre,
                       year := req.year, copies := req.copies,
                       available := newAvailable,
                       coverImageURL := orNull req.coverImageURL }
            else b) }, "Book updated successfully.")

/-- `PUT /api/members/:id` (server.js lines 318-341): validation `!name`,
then `UPDATE members SET name = ?, email = ? WHERE id = ?`; with the
`FOUND_ROWS` flag `affectedRows` is the matched-row count, so the 404 branch
fires exactly when no member has that id. -/
def updateMember (s : DB) (id : Nat) (name : String) (email : Option String) :
    Except String DB :=
  if name == "" then .error "Name is required."
  else if (s.members.filter (fun m => m.id == id)).isEmpty then
    .error "Member not found."
  else
    .ok { s with
      members := s.members.map (fun m =>
        if m.id == id then { m with name := name, email := orNull email } else m) }

/-- `POST /api/members/:id/pay-fines` (server.js lines 343-352):
`UPDATE members SET outstandingFines = 0 WHERE id = ?`; 404 exactly when no
row matches (`FOUND_ROWS` semantics of `affectedRows`). -/
def clearFines (s : DB) (id : Nat) : Except String (DB × String) :=
  if (s.members.filter (fun m => m.id == id)).isEmpty then
    .error "Member not found."
  else
    .ok ({ s with
      members := s.members.map (fun m =>
        if m.id == id then { m with outstandingFines := 0 } else m) },
      "Fines have been cleared.")

/-- The loan-transaction operations of claim C1: the two borrow routes and
the return route, with the call-time date arguments. -/
inductive Op where
  | borrowOp (memberId bookId : Nat) (dueDate borrowDate : Int)
  | studentBorrowOp (userId bookId : Nat) (dueDate borrowDate : Int)
  | returnOp (borrowId : Nat) (today : Int)
deriving DecidableEq

/-- Apply one operation to the state; an error response rolls the
transaction back, leaving the state unchanged. -/
def applyOp (s : DB) (o : Op) : DB :=
  match o with
  | .borrowOp m b d bd =>
    match borrow s m b d bd with
    | .ok s' => s'
    | .error _ => s
  | .studentBorrowOp u b d bd =>
    match studentBorrow s u b d bd with
    | .ok s' => s'
    | .error _ => s
  | .returnOp r t =>
    match returnLoan s r t with
    | .ok (s', _) => s'
    | .error _ => s

/-- Run a sequence of loan-transaction operations. -/
def run (s : DB) : List Op → DB
  | [] => s
  | o :: rest => run (applyOp s o) rest

/-- Number of outstanding loan rows referencing book `bid`. -/
def loanCountFor (s : DB) (bid : Nat) : Nat :=
  (s.loans.filter (fun l => l.bookId == bid)).length

/-- The spec's per-book invariant `0 ≤ available ≤ copies`. -/
def BookOk (s : DB) (bid : Nat) : Prop :=
  ∀ b ∈ s.books, b.id = bid → 0 ≤ b.available ∧ b.available ≤ b.copies

instance (s : DB) (bid : Nat) : Decidable (BookOk s bid) := by
  unfold BookOk; infer_instance

/-- The representation invariant the loan routes actually maintain for a
book: ids are unique (primary key), `available` is non-negative, and
`available` plus the outstanding loans on the book is bounded by `copies`. -/
def StrongInv (s : DB) (bid : Nat) : Prop :=
  (s.books.map (fun b => b.id)).Nodup ∧
  ∀ b ∈ s.books, b.id = bid →
    0 ≤ b.available ∧ b.available + (loanCountFor s bid : Int) ≤ b.copies

instance (s : DB) (bid : Nat) : Decidable (StrongInv s bid) := by
  unfold StrongInv; infer_instance

/-- State reached by `PUT /api/books/:id`: on an error response the
transaction-free handler returned before its `UPDATE`, so the state is
unchanged. -/
def updateBookApply (s : DB) (id : Nat) (req : BookReq) : DB :=
  match updateBook s id req with
  | .ok (s', _) => s'
  | .error _ => s

/-- State reached by `POST /api/books`: unchanged on an error response. -/
def createBookApply (s : DB) (req : BookReq) : DB :=
  match createBook s req with
  | .ok (s', _) => s'
  | .error _ => s

/-- A one-book catalog with a dangling loan row: the book is full
(`available = copies = 1`) yet a loan row references it. -/
def c1cexDB : DB :=
  { books := [{ id := 1, title := "B", author := "A", isbn := none, genre := none,
                year := none, copies := 1, available := 1, coverImageURL := none }],
    members := [],
    loans := [{ id := 1, bookId := 1, memberId := 1, bookTitle := "B",
                memberName := "M", borrowDate := 0, dueDate := 0 }],
    nextBookId := 2, nextLoanId := 2 }

/-- A small consistent state: one book with two copies, one member, no
loans. -/
def wDB : DB :=
  { books := [{ id := 1, title := "B", author := "A", isbn := none, genre := none,
                year := none, copies := 2, available := 2, coverImageURL := none }],
    members := [{ id := 1, name := "M", email := none, joinDate := 0,
                  booksBorrowed := 0, outstandingFines := 0, userId := some 7 }],
    loans := [], nextBookId := 2, nextLoanId := 1 }

/-- `wDB` after member 1 borrows book 1 with due date 3. -/
def wDB1 : DB :=
  { books := [{ id := 1, title := "B", author := "A", isbn := none, genre := none,
                year := none, copies := 2, available := 1, coverImageURL := none }],
    members := [{ id := 1, name := "M", email := none, joinDate := 0,
                  booksBorrowed := 1, outstandingFines := 0, userId := some 7 }],
    loans := [{ id := 1, bookId := 1, memberId := 1, bookTitle := "B",
                memberName := "M", borrowDate := 0, dueDate := 3 }],
    nextBookId := 2, nextLoanId := 2 }

/-- `wDB` after renaming member 1 to `"N"`. -/
def wDB1m : DB :=
  { books := [{ id := 1, title := "B", author := "A", isbn := none, genre := none,
                year := none, copies := 2, available := 2, coverImageURL := none }],
    members := [{ id := 1, name := "N", email := none, joinDate := 0,
                  booksBorrowed := 0, outstandingFines := 0, userId := some 7 }],
    loans := [], nextBookId := 2, nextLoanId := 1 }

/-- A one-copy book with two registered members, for the double-borrow
witness. -/
def wDBone : DB :=
  { books := [{ id := 1, title := "B", author := "A", isbn := none, genre := none,
                year := none, copies := 1, available := 1, coverImageURL := none }],
    members := [{ id := 1, name := "M", email := none, joinDate := 0,
                  booksBorrowed := 0, outstandingFines := 0, userId := some 7 },
                { id := 2, name := "P", email := none, joinDate := 0,
                  booksBorrowed := 0, outstandingFines := 0, userId := some 8 }],
    loans := [], nextBookId := 2, nextLoanId := 1 }

/-- The edited row of `wDBu`. -/
def bkW : Book :=
  { id := 1, title := "T2", author := "A2", isbn := none, genre := none,
    year := none, copies := 3, available := 3, coverImageURL := none }

/-! ## General lemmas about the embedded queries -/

/-- An element produced by `head?` of a filtered list is in the list and
satisfies the filter, which is exactly what `rows[0]` of a `SELECT ... WHERE`
guarantees. -/
theorem head_filter_spec {α} {p : α → Bool} {l : List α} {c : α}
    (h : (l.filter p).head? = some c) : c ∈ l ∧ p c = true :=
  List.mem_filter.mp (List.mem_of_mem_head? (Option.mem_def.mpr h))

/-- A nonempty list has a `head?`. -/
theorem exists_head_of_mem {α} {l : List α} {a : α} (h : a ∈ l) :
    ∃ c, l.head? = some c := by
  cases l with
  | nil => cases h
  | cons x t => exact ⟨x, rfl⟩

/-- When every row with the target id has `available ≤ 0`, the borrow
routes' `SELECT ... AND available > 0` returns no row. -/
theorem filter_avail_nil (s : DB) (bid : Nat)
    (h : ∀ b ∈ s.books, b.id = bid → b.available ≤ 0) :
    s.books.filter (fun b => b.id == bid && 0 < b.available) = [] := by
  rw [List.filter_eq_nil_iff]
  intro b hb
  simp only [Bool.and_eq_true, beq_iff_eq, decide_eq_true_eq, not_and]
  intro hid
  have := h b hb hid
  omega

/-- `POST /api/borrow` throws its conflict message whenever no copy of the
target book is available (in particular when the id has no row at all). -/
theorem borrow_error_of_unavailable (s : DB) (mid bid : Nat) (due bd : Int)
    (h : ∀ b ∈ s.books, b.id = bid → b.available ≤ 0) :
    borrow s mid bid due bd = .error "Book is unavailable or member not found." := by
  have hfil := filter_avail_nil s bid h
  unfold borrow
  rw [hfil]
  rfl

/-- `POST /api/student/borrow` likewise errors when no copy is available. -/
theorem studentBorrow_error_of_unavailable (s : DB) (u bid : Nat) (due bd : Int)
    (h : ∀ b ∈ s.books, b.id = bid → b.available ≤ 0) :
    ∃ e, studentBorrow s u bid due bd = .error e := by
  have hfil := filter_avail_nil s bid h
  unfold studentBorrow
  rw [hfil]
  cases (s.members.filter (fun m => m.userId == some u)).head? with
  | none => exact ⟨_, rfl⟩
  | some member => exact ⟨_, rfl⟩

/-! ## Claim theorems -/

/-- C3: a Borrow call on a book with no available copy (or a nonexistent
book id) fails with the conflict error and the rolled-back state is exactly
the starting state — the book rows, member rows, and loan rows are all
unchanged. -/
theorem borrow_unavailable_no_mutation (s : DB) (mid u bid : Nat) (due bd : Int)
    (h : ∀ b ∈ s.books, b.id = bid → b.available ≤ 0) :
    borrow s mid bid due bd = .error "Book is unavailable or member not found." ∧
    applyOp s (Op.borrowOp mid bid due bd) = s ∧
    (∃ e, studentBorrow s u bid due bd = Except.error e) ∧
    applyOp s (Op.studentBorrowOp u bid due bd) = s := by
  have h1 := borrow_error_of_unavailable s mid bid due bd h
  have h2 := studentBorrow_error_of_unavailable s u bid due bd h
  refine ⟨h1, by simp [applyOp, h1], h2, ?_⟩
  obtain ⟨e, he⟩ := h2
  simp [applyOp, he]

/-- Witness for C3 at a concrete state: book id 99 has no row in `wDB`. -/
theorem borrow_unavailable_no_mutation_witness :
    borrow wDB 1 99 5 0 = .error "Book is unavailable or member not found." ∧
    applyOp wDB (Op.borrowOp 1 99 5 0) = wDB ∧
    (∃ e, studentBorrow wDB 7 99 5 0 = Except.error e) ∧
    applyOp wDB (Op.studentBorrowOp 7 99 5 0) = wDB :=
  borrow_unavailable_no_mutation wDB 1 7 99 5 0 (by decide)

/-- Success equation for `pay-fines`: when a member row with the id exists,
the route answers 200 and zeroes that row's fines. -/
theorem clearFines_eq (s : DB) (mid : Nat) (m : Member)
    (hm : m ∈ s.members) (hid : m.id = mid) :
    clearFines s mid = .ok ({ s with members := s.members.map (fun x =>
      if x.id == mid then { x with outstandingFines := 0 } else x) },
      "Fines have been cleared.") := by
  have hne : (s.members.filter (fun x => x.id == mid)).isEmpty = false := by
    rw [List.isEmpty_eq_false]
    exact List.ne_nil_of_mem (List.mem_filter.mpr ⟨hm, by simp [hid]⟩)
  unfold clearFines
  rw [hne]
  simp

/-- C5: for an existing member, `POST /api/members/:id/pay-fines` succeeds
(also when the balance is already zero — `affectedRows` counts the matched
row), leaves `outstandingFines = 0`, and a second call returns the very same
state: the operation is unconditional and idempotent. -/
theorem clearFines_unconditional_idempotent (s : DB) (mid : Nat) (m : Member)
    (hm : m ∈ s.members) (hid : m.id = mid) :
    ∃ s1, clearFines s mid = .ok (s1, "Fines have been cleared.") ∧
      (∀ m' ∈ s1.members, m'.id = mid → m'.outstandingFines = 0) ∧
      clearFines s1 mid = .ok (s1, "Fines have been cleared.") := by
  have h1 := clearFines_eq s mid m hm hid
  refine ⟨_, h1, ?_, ?_⟩
  · intro m' hm' hid'
    rcases List.mem_map.mp hm' with ⟨a, _, rfl⟩
    by_cases h : a.id = mid
    · simp [h]
    · simp [h] at hid'
  · have hm1 : (if m.id == mid then { m with outstandingFines := 0 } else m) ∈
        (s.members.map (fun x =>
          if x.id == mid then { x with outstandingFines := 0 } else x)) :=
      List.mem_map_of_mem _ hm
    have hid1 : (if m.id == mid then { m with outstandingFines := 0 } else m).id = mid := by
      simp [hid]
    have h2 := clearFines_eq { s with members := s.members.map (fun x =>
        if x.id == mid then { x with outstandingFines := 0 } else x) } mid _ hm1 hid1
    rw [h2]
    have hidem : (s.members.map (fun x =>
        if x.id == mid then { x with outstandingFines := 0 } else x)).map (fun x =>
          if x.id == mid then { x with outstandingFines := 0 } else x) =
        s.members.map (fun x =>
          if x.id == mid then { x with outstandingFines := 0 } else x) := by
      rw [List.map_map]
      apply List.map_congr_left
      intro a _
      by_cases h : a.id = mid <;> simp [Function.comp, h]
    simp only [hidem]

/-- Witness for C5: member 1 of `wDB` (whose fines are already zero). -/
theorem clearFines_unconditional_idempotent_witness :
    ∃ s1, clearFines wDB 1 = .ok (s1, "Fines have been cleared.") ∧
      (∀ m' ∈ s1.members, m'.id = 1 → m'.outstandingFines = 0) ∧
      clearFines s1 1 = .ok (s1, "Fines have been cleared.") :=
  clearFines_unconditional_idempotent wDB 1
    { id := 1, name := "M", email := none, joinDate := 0,
      booksBorrowed := 0, outstandingFines := 0, userId := some 7 }
    (by decide) rfl

/-- A book request whose `copies` field is zero. -/
def reqZero : BookReq :=
  { title := "T", author := "A", isbn := none, genre := none, year := none,
    copies := 0, coverImageURL := none }

/-- C8: `copies = 0` is falsy in the `!title || !author || !copies`
validation, so both `POST /api/books` and `PUT /api/books/:id` reject it
with the missing-fields message and leave the state unchanged: no book can
be created with, or edited to, `copies = 0` through these routes. -/
theorem copies_zero_rejected (s : DB) (bid : Nat) (req : BookReq)
    (h : req.copies = 0) :
    createBook s req = .error "Title, author, and copies are required." ∧
    createBookApply s req = s ∧
    updateBook s bid req = .error "Title, author, and copies are required." ∧
    updateBookApply s bid req = s := by
  have h1 : createBook s req = .error "Title, author, and copies are required." := by
    simp [createBook, h]
  have h2 : updateBook s bid req = .error "Title, author, and copies are required." := by
    simp [updateBook, h]
  exact ⟨h1, by simp [createBookApply, h1], h2, by simp [updateBookApply, h2]⟩

/-- Witness for C8 at the concrete request `reqZero`. -/
theorem copies_zero_rejected_witness :
    createBook wDB reqZero = .error "Title, author, and copies are required." ∧
    createBookApply wDB reqZero = wDB ∧
    updateBook wDB 1 reqZero = .error "Title, author, and copies are required." ∧
    updateBookApply wDB 1 reqZero = wDB :=
  copies_zero_rejected wDB 1 reqZero rfl

/-- C9: a successful `PUT /api/members/:id` rewrites only `name` and
`email`: every row keeps its id, `booksBorrowed`, `outstandingFines`,
`joinDate` and `userId`, and the other tables are untouched. -/
theorem updateMember_frame (s : DB) (mid : Nat) (name : String)
    (email : Option String) (s1 : DB)
    (h : updateMember s mid name email = .ok s1) :
    s1.members.map (fun m =>
        (m.id, m.booksBorrowed, m.outstandingFines, m.joinDate, m.userId)) =
      s.members.map (fun m =>
        (m.id, m.booksBorrowed, m.outstandingFines, m.joinDate, m.userId)) ∧
    s1.books = s.books ∧ s1.loans = s.loans := by
  unfold updateMember at h
  split at h
  · simp at h
  · split at h
    · simp at h
    · injection h with h
      subst h
      refine ⟨?_, rfl, rfl⟩
      rw [List.map_map]
      apply List.map_congr_left
      intro a _
      by_cases hc : a.id = mid <;> simp [Function.comp, hc]

/-- Witness for C9: rename member 1 of `wDB` to `"N"`. -/
theorem updateMember_frame_witness :
    wDB1m.members.map (fun m =>
        (m.id, m.booksBorrowed, m.outstandingFines, m.joinDate, m.userId)) =
      wDB.members.map (fun m =>
        (m.id, m.booksBorrowed, m.outstandingFines, m.joinDate, m.userId)) ∧
    wDB1m.books = wDB.books ∧ wDB1m.loans = wDB.loans :=
  updateMember_frame wDB 1 "N" none wDB1m rfl

/-- A valid edit request raising the copies of the witness book to 3. -/
def reqUpd : BookReq :=
  { title := "T2", author := "A2", isbn := none, genre := none, year := none,
    copies := 3, coverImageURL := none }

/-- `wDB` after `PUT /api/books/1` with `reqUpd`. -/
def wDBu : DB :=
  { books := [{ id := 1, title := "T2", author := "A2", isbn := none, genre := none,
                year := none, copies := 3, available := 3, coverImageURL := none }],
    members := [{ id := 1, name := "M", email := none, joinDate := 0,
                  booksBorrowed := 0, outstandingFines := 0, userId := some 7 }],
    loans := [], nextBookId := 2, nextLoanId := 1 }

/-- C6: `PUT /api/books/:id` on an existing book recomputes
`available = oldAvailable + (newCopies - oldCopies)`; a negative recomputed
value is rejected with the conflict message leaving the state (so the row)
unchanged, otherwise the matched row is rewritten with the new fields, the
new `copies`, and the recomputed `available`. -/
theorem updateBook_recompute_available (s : DB) (bid : Nat) (req : BookReq)
    (oldBook : Book)
    (ht : req.title ≠ "") (ha : req.author ≠ "") (hc : req.copies ≠ 0)
    (hfind : (s.books.filter (fun b => b.id == bid)).head? = some oldBook) :
    (oldBook.available + (req.copies - oldBook.copies) < 0 →
      updateBook s bid req =
        .error "Cannot reduce copies below the number currently borrowed." ∧
      updateBookApply s bid req = s) ∧
    (0 ≤ oldBook.available + (req.copies - oldBook.copies) →
      updateBook s bid req = .ok ({ s with books := s.books.map (fun b =>
        if b.id == bid then
          { b with title := req.title, author := req.author,
                   isbn := orNull req.isbn, genre := orNull req.genre,
                   year := req.year, copies := req.copies,
                   available := oldBook.available + (req.copies - oldBook.copies),
                   coverImageURL := orNull req.coverImageURL }
        else b) }, "Book updated successfully.")) := by
  constructor
  · intro hneg
    have he : updateBook s bid req =
        .error "Cannot reduce copies below the number currently borrowed." := by
      simp [updateBook, hfind, ht, ha, hc, hneg]
    exact ⟨he, by simp [updateBookApply, he]⟩
  · intro hpos
    have hlt : ¬ (oldBook.available + (req.copies - oldBook.copies) < 0) :=
      not_lt.mpr hpos
    simp [updateBook, hfind, ht, ha, hc, hlt]

/-- Witness for C6: raising the copies of book 1 in `wDB` from 2 to 3
recomputes `available = 2 + (3 - 2) = 3`. -/
theorem updateBook_recompute_available_witness :
    updateBook wDB 1 reqUpd = .ok (wDBu, "Book updated successfully.") := by
  have h := (updateBook_recompute_available wDB 1 reqUpd
    { id := 1, title := "B", author := "A", isbn := none, genre := none,
      year := none, copies := 2, available := 2, coverImageURL := none }
    (by decide) (by decide) (by decide) rfl).2 (by decide)
  rw [h]
  rfl

/-- C10: a successful `PUT /api/books/:id` preserves
`0 ≤ available ≤ copies` on every row: the rejected-negative case cannot
commit, and `available ≤ oldCopies` forces the recomputed value to be at
most the new `copies`. -/
theorem updateBook_preserves_invariant (s : DB) (bid : Nat) (req : BookReq)
    (s1 : DB) (msg : String)
    (hinv : ∀ b ∈ s.books, 0 ≤ b.available ∧ b.available ≤ b.copies)
    (h : updateBook s bid req = .ok (s1, msg)) :
    ∀ b ∈ s1.books, 0 ≤ b.available ∧ b.available ≤ b.copies := by
  by_cases ht : req.title = ""
  · simp [updateBook, ht] at h
  by_cases ha : req.author = ""
  · simp [updateBook, ha] at h
  by_cases hc : req.copies = 0
  · simp [updateBook, hc] at h
  cases hfind : (s.books.filter (fun b => b.id == bid)).head? with
  | none => simp [updateBook, ht, ha, hc, hfind] at h
  | some oldBook =>
    by_cases hneg : oldBook.available + (req.copies - oldBook.copies) < 0
    · simp [updateBook, ht, ha, hc, hfind, hneg] at h
    · simp [updateBook, ht, ha, hc, hfind, hneg] at h
      obtain ⟨h1, -⟩ := h
      subst h1
      intro b hb
      rcases List.mem_map.mp hb with ⟨a, ha2, rfl⟩
      by_cases hid : a.id = bid
      · have hold := hinv oldBook (head_filter_spec hfind).1
        simp only [hid, if_true]
        simp only [not_lt] at hneg
        rcases hold with ⟨h01, h02⟩
        refine ⟨?_, ?_⟩
        · show 0 ≤ oldBook.available + (req.copies - oldBook.copies)
          omega
        · show oldBook.available + (req.copies - oldBook.copies) ≤ req.copies
          omega
      · simp only [hid, if_false]
        exact hinv a ha2

/-- Witness for C10: the successful edit of book 1 keeps
`0 ≤ available ≤ copies` on the edited row. -/
theorem updateBook_preserves_invariant_witness :
    0 ≤ bkW.available ∧ bkW.available ≤ bkW.copies :=
  updateBook_preserves_invariant wDB 1 reqUpd wDBu "Book updated successfully."
    (by decide) (by rfl) bkW (by decide)

/-- The millisecond ceiling in the return route is exact on whole days:
for a difference of `d` days, `Math.ceil(timeDiff / msPerDay) = d`. -/
theorem ceil_days (d : Int) :
    (d * msPerDay + (msPerDay - 1)) / msPerDay = d := by
  have hK : msPerDay ≠ 0 := by decide
  rw [Int.add_comm, Int.add_mul_ediv_right _ _ hK]
  have h0 : (msPerDay - 1) / msPerDay = 0 :=
    Int.ediv_eq_zero_of_lt (by decide) (by decide)
  rw [h0, Int.zero_add]

/-- C2: returning a loan found by id succeeds; when `today ≤ dueDate` the
fine is zero and the plain message is returned, and when the return is
`d = today − dueDate` days late the member's fines grow by exactly
`d * DAILY_FINE_RATE` (added to the existing balance, not overwritten) and
the message reports the day count — so 1 day late charges 100 and 3 days
late charges 300 with "3 day(s)" in the message. -/
theorem return_fine_computation (s : DB) (borrowId : Nat) (today : Int)
    (record : Loan)
    (hrec : (s.loans.filter (fun l => l.id == borrowId)).head? = some record) :
    ∃ s1 : DB,
      returnLoan s borrowId today = .ok (s1,
        if record.dueDate < today then
          "Book returned successfully." ++ " A fine of ₹" ++
            toString ((today - record.dueDate) * DAILY_FINE_RATE) ++ ".00 for " ++
            toString (today - record.dueDate) ++ " day(s) overdue added."
        else "Book returned successfully.") ∧
      s1.members.map (fun m => (m.id, m.outstandingFines)) =
        s.members.map (fun m => (m.id, m.outstandingFines +
          if m.id = record.memberId ∧ record.dueDate < today then
            (today - record.dueDate) * DAILY_FINE_RATE
          else 0)) := by
  by_cases hl : record.dueDate < today
  · refine ⟨{ s with
        books := s.books.map (fun b =>
          if b.id == record.bookId then { b with available := b.available + 1 } else b),
        members := s.members.map (fun m =>
          if m.id == record.memberId then
            { m with booksBorrowed := m.booksBorrowed - 1,
                     outstandingFines := m.outstandingFines +
                       (today - record.dueDate) * DAILY_FINE_RATE }
          else m),
        loans := s.loans.filter (fun l => !(l.id == borrowId)) }, ?_, ?_⟩
    · have hd := ceil_days (today - record.dueDate)
      simp [returnLoan, hrec, hl, hd]
    · rw [List.map_map]
      apply List.map_congr_left
      intro a _
      by_cases hm : a.id = record.memberId <;> simp [Function.comp, hm, hl]
  · refine ⟨{ s with
        books := s.books.map (fun b =>
          if b.id == record.bookId then { b with available := b.available + 1 } else b),
        members := s.members.map (fun m =>
          if m.id == record.memberId then
            { m with booksBorrowed := m.booksBorrowed - 1,
                     outstandingFines := m.outstandingFines }
          else m),
        loans := s.loans.filter (fun l => !(l.id == borrowId)) }, ?_, ?_⟩
    · simp [returnLoan, hrec, hl]
    · rw [List.map_map]
      apply List.map_congr_left
      intro a _
      by_cases hm : a.id = record.memberId <;> simp [Function.comp, hm, hl]

/-- Witness for C2: the loan of `wDB1` is due on day 3 and returned on
day 6, i.e. 3 days late. -/
theorem return_fine_computation_witness :
    ∃ s1 : DB,
      returnLoan wDB1 1 6 = .ok (s1,
        if (3 : Int) < 6 then
          "Book returned successfully." ++ " A fine of ₹" ++
            toString (((6 : Int) - 3) * DAILY_FINE_RATE) ++ ".00 for " ++
            toString ((6 : Int) - 3) ++ " day(s) overdue added."
        else "Book returned successfully.") ∧
      s1.members.map (fun m => (m.id, m.outstandingFines)) =
        wDB1.members.map (fun m => (m.id, m.outstandingFines +
          if m.id = 1 ∧ (3 : Int) < 6 then ((6 : Int) - 3) * DAILY_FINE_RATE
          else 0)) :=
  return_fine_computation wDB1 1 6
    { id := 1, bookId := 1, memberId := 1, bookTitle := "B",
      memberName := "M", borrowDate := 0, dueDate := 3 } rfl

/-- Success equation of the borrow transaction when both `SELECT`s return a
row. -/
theorem borrow_ok_eq (s : DB) (mid bid : Nat) (due bd : Int) (book : Book)
    (member : Member)
    (hbook : (s.books.filter (fun b => b.id == bid && 0 < b.available)).head? =
      some book)
    (hmem : (s.members.filter (fun m => m.id == mid)).head? = some member) :
    borrow s mid bid due bd = .ok { s with
      books := s.books.map (fun b =>
        if b.id == bid then { b with available := b.available - 1 } else b),
      members := s.members.map (fun m =>
        if m.id == mid then { m with booksBorrowed := m.booksBorrowed + 1 } else m),
      loans := s.loans ++
        [{ id := s.nextLoanId, bookId := book.id, memberId := member.id,
           bookTitle := book.title, memberName := member.name,
           borrowDate := bd, dueDate := due }],
      nextLoanId := s.nextLoanId + 1 } := by
  simp only [borrow, hbook, hmem]

/-- Borrowing the last copy succeeds and leaves every row of the book id
with `available = 0`. -/
theorem borrow_last_copy (s : DB) (mid bid : Nat) (due bd : Int)
    (havail : ∀ b ∈ s.books, b.id = bid → b.available = 1)
    (hex : ∃ b ∈ s.books, b.id = bid)
    (hm : ∃ m ∈ s.members, m.id = mid) :
    ∃ s1, borrow s mid bid due bd = .ok s1 ∧
      ∀ b ∈ s1.books, b.id = bid → b.available = 0 := by
  obtain ⟨b0, hb0, hid0⟩ := hex
  have hb0f : b0 ∈ s.books.filter (fun b => b.id == bid && 0 < b.available) :=
    List.mem_filter.mpr ⟨hb0, by simp [hid0, havail b0 hb0 hid0]⟩
  obtain ⟨book, hbook⟩ := exists_head_of_mem hb0f
  obtain ⟨m0, hm0, hmid0⟩ := hm
  have hm0f : m0 ∈ s.members.filter (fun m => m.id == mid) :=
    List.mem_filter.mpr ⟨hm0, by simp [hmid0]⟩
  obtain ⟨member, hmem⟩ := exists_head_of_mem hm0f
  refine ⟨_, borrow_ok_eq s mid bid due bd book member hbook hmem, ?_⟩
  intro b hb hbid
  rcases List.mem_map.mp hb with ⟨a, ha, rfl⟩
  by_cases hid : a.id = bid
  · have h1 := havail a ha hid
    simp only [hid, beq_self_eq_true, if_true]
    show a.available - 1 = 0
    omega
  · simp only [beq_iff_eq, hid, if_false] at hbid

/-- C7: with one available copy and valid member ids, the two serialization
orders the row-level lock permits both give exactly one success and one
conflict error, and the final availability of the book is 0; the failed call
leaves the state of the successful one untouched. -/
theorem last_copy_two_borrows (s : DB) (m1 m2 bid : Nat) (d1 d2 bd1 bd2 : Int)
    (havail : ∀ b ∈ s.books, b.id = bid → b.available = 1)
    (hex : ∃ b ∈ s.books, b.id = bid)
    (hm1 : ∃ m ∈ s.members, m.id = m1)
    (hm2 : ∃ m ∈ s.members, m.id = m2) :
    (∃ s1, borrow s m1 bid d1 bd1 = .ok s1 ∧
      borrow s1 m2 bid d2 bd2 = .error "Book is unavailable or member not found." ∧
      applyOp s1 (Op.borrowOp m2 bid d2 bd2) = s1 ∧
      ∀ b ∈ s1.books, b.id = bid → b.available = 0) ∧
    (∃ s1, borrow s m2 bid d2 bd2 = .ok s1 ∧
      borrow s1 m1 bid d1 bd1 = .error "Book is unavailable or member not found." ∧
      applyOp s1 (Op.borrowOp m1 bid d1 bd1) = s1 ∧
      ∀ b ∈ s1.books, b.id = bid → b.available = 0) := by
  constructor
  · obtain ⟨s1, hok, h0⟩ := borrow_last_copy s m1 bid d1 bd1 havail hex hm1
    have herr := borrow_error_of_unavailable s1 m2 bid d2 bd2
      (fun b hb hbid => le_of_eq (h0 b hb hbid))
    exact ⟨s1, hok, herr, by simp [applyOp, herr], h0⟩
  · obtain ⟨s1, hok, h0⟩ := borrow_last_copy s m2 bid d2 bd2 havail hex hm2
    have herr := borrow_error_of_unavailable s1 m1 bid d1 bd1
      (fun b hb hbid => le_of_eq (h0 b hb hbid))
    exact ⟨s1, hok, herr, by simp [applyOp, herr], h0⟩

/-- Witness for C7: one book with a single available copy and two members. -/
theorem last_copy_two_borrows_witness :
    (∃ s1, borrow wDBone 1 1 5 0 = .ok s1 ∧
      borrow s1 2 1 6 0 = .error "Book is unavailable or member not found." ∧
      applyOp s1 (Op.borrowOp 2 1 6 0) = s1 ∧
      ∀ b ∈ s1.books, b.id = 1 → b.available = 0) ∧
    (∃ s1, borrow wDBone 2 1 6 0 = .ok s1 ∧
      borrow s1 1 1 5 0 = .error "Book is unavailable or member not found." ∧
      applyOp s1 (Op.borrowOp 1 1 5 0) = s1 ∧
      ∀ b ∈ s1.books, b.id = 1 → b.available = 0) :=
  last_copy_two_borrows wDBone 1 2 1 5 6 0 0 (by decide) (by decide)
    (by decide) (by decide)

/-- C4: a successful Borrow followed immediately by a Return of the loan
record it created (id `s.nextLoanId`, fresh by auto-increment) succeeds,
restores `Book.available` (the whole book table, in fact) and every
member's `booksBorrowed` to their pre-borrow values, and removes the loan
row: no row with that loan id remains. -/
theorem borrow_then_return_restores (s : DB) (mid bid : Nat) (due bd today : Int) (s1 : DB)
    (hfresh : ∀ l ∈ s.loans, l.id < s.nextLoanId)
    (hb : borrow s mid bid due bd = .ok s1) :
    (∃ r, returnLoan s1 s.nextLoanId today = .ok r) ∧
    ∀ s2 msg, returnLoan s1 s.nextLoanId today = .ok (s2, msg) →
      s2.books = s.books ∧
      s2.loans = s.loans ∧
      (∀ l ∈ s2.loans, l.id ≠ s.nextLoanId) ∧
      s2.members.map (fun m => (m.id, m.booksBorrowed)) =
        s.members.map (fun m => (m.id, m.booksBorrowed)) := by
  simp only [borrow] at hb
  split at hb
  next book member hbook hmem =>
    injection hb with hb
    subst hb
    have hbid : book.id = bid ∧ 0 < book.available := by
      have h := (head_filter_spec hbook).2
      simpa using h
    have hmid : member.id = mid := by
      have h := (head_filter_spec hmem).2
      simpa using h
    have hold : s.loans.filter (fun l => l.id == s.nextLoanId) = [] := by
      rw [List.filter_eq_nil_iff]
      intro l hl
      have := hfresh l hl
      simp only [beq_iff_eq]
      omega
    have hfh : ((s.loans ++ [({ id := s.nextLoanId, bookId := book.id, memberId := member.id, bookTitle := book.title, memberName := member.name, borrowDate := bd, dueDate := due } : Loan)]).filter (fun l => l.id == s.nextLoanId)).head? = some { id := s.nextLoanId, bookId := book.id, memberId := member.id, bookTitle := book.title, memberName := member.name, borrowDate := bd, dueDate := due } := by
      rw [List.filter_append, hold]
      simp
    constructor
    · simp only [returnLoan, hfh]
      exact ⟨_, rfl⟩
    · intro s2 msg h2
      simp only [returnLoan, hfh] at h2
      injection h2 with h2
      injection h2 with h2 hmsg
      subst h2
      refine ⟨?_, ?_, ?_, ?_⟩
      · rw [List.map_map]
        have hpt : ∀ a ∈ s.books, ((fun b =>
            if b.id == book.id then { b with available := b.available + 1 } else b) ∘
            (fun b => if b.id == bid then { b with available := b.available - 1 } else b))
              a = id a := by
          intro a _
          by_cases h : a.id = bid
          · simp [Function.comp, h, hbid.1, Int.sub_add_cancel]
            rw [← h]
          · simp [Function.comp, h, hbid.1]
        exact (List.map_congr_left hpt).trans (List.map_id _)
      · rw [List.filter_append]
        have h1 : s.loans.filter (fun l => !(l.id == s.nextLoanId)) = s.loans := by
          rw [List.filter_eq_self]
          intro l hl
          have := hfresh l hl
          simp only [Bool.not_eq_true', beq_eq_false_iff_ne]
          omega
        rw [h1]
        simp
      · intro l hl
        have := (List.mem_filter.mp hl).2
        simp only [Bool.not_eq_true', beq_eq_false_iff_ne] at this
        exact this
      · rw [List.map_map, List.map_map]
        apply List.map_congr_left
        intro a _
        by_cases h : a.id = mid <;>
          simp [Function.comp, h, hmid, Int.add_sub_cancel]
  next h1 h2 => simp at hb

/-- Witness for C4: borrow book 1 of `wDB` (due day 3), return on day 6. -/
theorem borrow_then_return_restores_witness :
    (∃ r, returnLoan wDB1 wDB.nextLoanId 6 = .ok r) ∧
    ∀ s2 msg, returnLoan wDB1 wDB.nextLoanId 6 = .ok (s2, msg) →
      s2.books = wDB.books ∧
      s2.loans = wDB.loans ∧
      (∀ l ∈ s2.loans, l.id ≠ wDB.nextLoanId) ∧
      s2.members.map (fun m => (m.id, m.booksBorrowed)) =
        wDB.members.map (fun m => (m.id, m.booksBorrowed)) :=
  borrow_then_return_restores wDB 1 1 3 0 6 wDB1 (by decide) rfl

/-- Deleting rows can only shrink any filtered count. -/
theorem length_filter_filter_le (l : List Loan) (q r : Loan → Bool) :
    ((l.filter r).filter q).length ≤ (l.filter q).length :=
  (List.Sublist.filter q (List.filter_sublist l)).length_le

/-- Deleting the rows with a key that some `q`-row carries strictly shrinks
the `q`-count. -/
theorem length_filter_delete_lt (l : List Loan) (q r : Loan → Bool)
    (x : Loan) (hx : x ∈ l) (hq : q x = true) (hr : r x = true) :
    ((l.filter (fun y => !(r y))).filter q).length + 1 ≤ (l.filter q).length := by
  induction l with
  | nil => cases hx
  | cons a t ih =>
    rcases List.mem_cons.mp hx with rfl | hxt
    · have hmono := length_filter_filter_le t q (fun y => !(r y))
      simp only [List.filter_cons, hr, hq, Bool.not_true, Bool.false_eq_true,
        if_false, if_true, List.length_cons]
      omega
    · have ih := ih hxt
      by_cases hra : r a = true <;> by_cases hqa : q a = true <;>
        simp only [List.filter_cons, hra, hqa, Bool.not_true, Bool.not_false,
          Bool.false_eq_true, Bool.not_eq_true, if_false, if_true,
          List.length_cons] <;>
        omega

/-- Appending one row grows the filtered count by its own contribution. -/
theorem length_filter_append_one (ls : List Loan) (nl : Loan) (q : Loan → Bool) :
    ((ls ++ [nl]).filter q).length =
      (ls.filter q).length + (if q nl then 1 else 0) := by
  rw [List.filter_append]
  by_cases h : q nl = true <;> simp [h]

/-- Mapping an id-preserving row update keeps the id column duplicate-free. -/
theorem nodup_ids_map (books : List Book) (g : Book → Book)
    (hg : ∀ b, (g b).id = b.id)
    (h : (books.map (fun b => b.id)).Nodup) :
    ((books.map g).map (fun b => b.id)).Nodup := by
  rw [List.map_map]
  have heq : books.map ((fun b => b.id) ∘ g) = books.map (fun b => b.id) :=
    List.map_congr_left (fun a _ => hg a)
  rw [heq]
  exact h

/-- The committed write set of a borrow transaction (either route) preserves
the strong per-book invariant: the decremented row was locked with
`available > 0`, and the freshly inserted loan row references it. -/
theorem strongInv_borrow_update (s : DB) (bid bid2 : Nat) (book : Book)
    (members' : List Member) (nlmid : Nat) (mn : String) (due bd : Int)
    (hbook : (s.books.filter (fun b => b.id == bid2 && 0 < b.available)).head? =
      some book)
    (h : StrongInv s bid) :
    StrongInv { s with
      books := s.books.map (fun b =>
        if b.id == bid2 then { b with available := b.available - 1 } else b),
      members := members',
      loans := s.loans ++ [({ id := s.nextLoanId, bookId := book.id, memberId := nlmid, bookTitle := book.title, memberName := mn, borrowDate := bd, dueDate := due } : Loan)],
      nextLoanId := s.nextLoanId + 1 } bid := by
  obtain ⟨hnd, hinv⟩ := h
  obtain ⟨hbmem, hbpred⟩ := head_filter_spec hbook
  have hbid2 : book.id = bid2 ∧ 0 < book.available := by simpa using hbpred
  constructor
  · apply nodup_ids_map
    · intro b
      by_cases hc : b.id = bid2 <;> simp [hc]
    · exact hnd
  · intro b hb hbid
    rcases List.mem_map.mp hb with ⟨a, ha, rfl⟩
    have hgid : ∀ x : Book, ((fun c =>
        if c.id == bid2 then { c with available := c.available - 1 } else c) x).id =
          x.id := by
      intro x
      by_cases hc : x.id = bid2 <;> simp [hc]
    have haid : a.id = bid := by
      rw [← hgid a]
      exact hbid
    have hcount := length_filter_append_one s.loans
      ({ id := s.nextLoanId, bookId := book.id, memberId := nlmid, bookTitle := book.title, memberName := mn, borrowDate := bd, dueDate := due } : Loan)
      (fun l => l.bookId == bid)
    by_cases hc : a.id = bid2
    · have hab : a = book := by
        apply List.inj_on_of_nodup_map hnd ha hbmem
        rw [hc, hbid2.1]
      have hcond : (a.id == bid2) = true := by simp [hc]
      have hnlc : (book.id == bid) = true := by
        rw [hbid2.1, ← hc, haid]
        simp
      simp only [loanCountFor, hcond, if_true, hcount, hnlc]
      have h1 := hbid2.2
      have h2 := hinv a ha haid
      simp only [loanCountFor] at h2
      rw [← hab] at h1
      constructor
      · show (0 : Int) ≤ a.available - 1
        omega
      · show a.available - 1 +
          ((s.loans.filter (fun l => l.bookId == bid)).length + 1 : Nat) ≤ a.copies
        push_cast
        omega
    · have hcond : (a.id == bid2) = false := by simp [hc]
      have hnlc : (book.id == bid) = false := by
        simp only [beq_eq_false_iff_ne, ne_eq, hbid2.1]
        omega
      simp only [loanCountFor, hcond, Bool.false_eq_true, if_false, hcount, hnlc]
      have h2 := hinv a ha haid
      simp only [loanCountFor] at h2
      simpa using h2

/-- The committed write set of a return transaction preserves the strong
per-book invariant: the deleted loan row is the one that was read under the
lock, and the incremented book row is the one that loan references. -/
theorem strongInv_return_update (s : DB) (bid rid : Nat) (record : Loan)
    (members' : List Member)
    (hrec : (s.loans.filter (fun l => l.id == rid)).head? = some record)
    (h : StrongInv s bid) :
    StrongInv { s with
      books := s.books.map (fun b =>
        if b.id == record.bookId then { b with available := b.available + 1 } else b),
      members := members',
      loans := s.loans.filter (fun l => !(l.id == rid)) } bid := by
  obtain ⟨hnd, hinv⟩ := h
  obtain ⟨hrmem, hrpred⟩ := head_filter_spec hrec
  have hrid : record.id = rid := by simpa using hrpred
  constructor
  · apply nodup_ids_map
    · intro b
      by_cases hc : b.id = record.bookId <;> simp [hc]
    · exact hnd
  · intro b hb hbid
    rcases List.mem_map.mp hb with ⟨a, ha, rfl⟩
    have hgid : ∀ x : Book, ((fun c =>
        if c.id == record.bookId then { c with available := c.available + 1 } else c) x).id =
          x.id := by
      intro x
      by_cases hc : x.id = record.bookId <;> simp [hc]
    have haid : a.id = bid := by
      rw [← hgid a]
      exact hbid
    have h2 := hinv a ha haid
    simp only [loanCountFor] at h2 ⊢
    by_cases hc : a.id = record.bookId
    · have hcond : (a.id == record.bookId) = true := by simp [hc]
      have hqx : ((fun l => l.bookId == bid) record) = true := by
        simp [← hc, haid]
      have hrx : ((fun l => l.id == rid) record) = true := by simp [hrid]
      have hdel0 := length_filter_delete_lt s.loans (fun l => l.bookId == bid)
        (fun l => l.id == rid) record hrmem hqx hrx
      have hdel : ((s.loans.filter (fun l => !(l.id == rid))).filter
          (fun l => l.bookId == bid)).length + 1 ≤
          (s.loans.filter (fun l => l.bookId == bid)).length := by
        simpa using hdel0
      simp only [hcond, if_true]
      constructor
      · show (0 : Int) ≤ a.available + 1
        omega
      · show a.available + 1 +
          (((s.loans.filter (fun l => !(l.id == rid))).filter
            (fun l => l.bookId == bid)).length : Nat) ≤ a.copies
        omega
    · have hcond : (a.id == record.bookId) = false := by simp [hc]
      have hmono := length_filter_filter_le s.loans (fun l => l.bookId == bid)
        (fun l => !(l.id == rid))
      simp only [hcond, Bool.false_eq_true, if_false]
      constructor
      · exact h2.1
      · have h3 := h2.2
        show a.available +
          (((s.loans.filter (fun l => !(l.id == rid))).filter
            (fun l => l.bookId == bid)).length : Nat) ≤ a.copies
        omega

/-- Each loan-transaction operation preserves the strong per-book
invariant (errors roll back, successes commit the analysed write sets). -/
theorem strongInv_applyOp (s : DB) (bid : Nat) (o : Op) (h : StrongInv s bid) :
    StrongInv (applyOp s o) bid := by
  cases o with
  | borrowOp mid bid2 due bd =>
    cases hb : borrow s mid bid2 due bd with
    | error e => simpa [applyOp, hb] using h
    | ok s' =>
      have hred : applyOp s (Op.borrowOp mid bid2 due bd) = s' := by
        simp [applyOp, hb]
      rw [hred]
      simp only [borrow] at hb
      split at hb
      next book member hbook hmem =>
        injection hb with hb
        subst hb
        exact strongInv_borrow_update s bid bid2 book _ member.id member.name
          due bd hbook h
      next => simp at hb
  | studentBorrowOp u bid2 due bd =>
    cases hb : studentBorrow s u bid2 due bd with
    | error e => simpa [applyOp, hb] using h
    | ok s' =>
      have hred : applyOp s (Op.studentBorrowOp u bid2 due bd) = s' := by
        simp [applyOp, hb]
      rw [hred]
      simp only [studentBorrow] at hb
      split at hb
      · simp at hb
      next member hmem =>
        split at hb
        · simp at hb
        next book hbook =>
          injection hb with hb
          subst hb
          exact strongInv_borrow_update s bid bid2 book _ member.id member.name
            due bd hbook h
  | returnOp rid today =>
    cases hb : returnLoan s rid today with
    | error e => simpa [applyOp, hb] using h
    | ok r =>
      have hred : applyOp s (Op.returnOp rid today) = r.1 := by
        simp [applyOp, hb]
      rw [hred]
      simp only [returnLoan] at hb
      split at hb
      · simp at hb
      next record hrec =>
        injection hb with hb
        rw [← hb]
        exact strongInv_return_update s bid rid record _ hrec h

/-- Runs of loan-transaction operations preserve the strong invariant. -/
theorem strongInv_run (s : DB) (bid : Nat) (ops : List Op) (h : StrongInv s bid) :
    StrongInv (run s ops) bid := by
  induction ops generalizing s with
  | nil => exact h
  | cons o rest ih => exact ih _ (strongInv_applyOp s bid o h)

/-- C1 (amended): for a book satisfying the representation invariant the
loan routes maintain — unique book ids, `0 ≤ available`, and
`available + outstanding loan rows ≤ copies` — any sequence of Borrow
(either route) and Return operations keeps `0 ≤ available ≤ copies`. -/
theorem loan_ops_preserve_book_bounds (s : DB) (bid : Nat) (ops : List Op)
    (hids : (s.books.map (fun b => b.id)).Nodup)
    (hinv : ∀ b ∈ s.books, b.id = bid →
      0 ≤ b.available ∧ b.available + (loanCountFor s bid : Int) ≤ b.copies) :
    BookOk (run s ops) bid := by
  obtain ⟨-, h2⟩ := strongInv_run s bid ops ⟨hids, hinv⟩
  intro b hb hbid
  obtain ⟨h1, h3⟩ := h2 b hb hbid
  refine ⟨h1, ?_⟩
  omega

/-- Counterexample to C1 as stated: in `c1cexDB` the book satisfies
`0 ≤ available ≤ copies` (both are 1), yet a dangling loan row references
it, and returning that loan drives `available` to `2 > copies`. -/
theorem book_bounds_not_preserved_cex :
    BookOk c1cexDB 1 ∧ ¬ BookOk (run c1cexDB [Op.returnOp 1 0]) 1 := by decide

/-- Witness for amended C1: a borrow, a return (3 days late), and a student
borrow on `wDB` keep book 1 within bounds. -/
theorem loan_ops_preserve_book_bounds_witness :
    BookOk (run wDB
      [Op.borrowOp 1 1 3 0, Op.returnOp 1 6, Op.studentBorrowOp 7 1 5 2]) 1 :=
  loan_ops_preserve_book_bounds wDB 1
    [Op.borrowOp 1 1 3 0, Op.returnOp 1 6, Op.studentBorrowOp 7 1 5 2]
    (by decide) (by decide)
